import Mathlib

/-!
Verification of `checker.py`, a single-file STX wallet balance checker.

The embedding models the program shallowly:

* HTTP is an oracle `net : String → HttpOutcome` mapping a request URL to the
  outcome of `requests.get`: either a raised exception (`.exn`) or a response
  with a status code and a body.  A body that fails to parse as JSON (so that
  `response.json()` raises) is modelled as `none`; a parsed body is a
  `JsonObj`, of which only the `balance` field is ever read.
* Python numeric results are modelled exactly: micro-STX amounts as `Int`,
  STX amounts (micro-STX divided by 1,000,000) as `ℚ`.
* A Python dict is modelled as an association list in insertion order; the
  result dict of `check_stx_balances` is the list of (name, address, balance)
  records in the order they were added.
* Per-entry exceptions caught by the `except` block are the `EntryOutcome.raised`
  value; the batch function skips such entries, mirroring `continue`.
-/

/-- Whitespace characters removed from both ends by Python `str.strip()`
(the ASCII range; `Char.ofNat 11` and `12` are vertical tab and form feed). -/
def isPySpace (c : Char) : Bool :=
  c = ' ' || c = '\t' || c = '\n' || c = '\r' || c = Char.ofNat 11 || c = Char.ofNat 12

/-- Model of Python `str.strip()`: drop leading and trailing whitespace. -/
def pyStrip (s : String) : String :=
  String.mk (((s.toList.dropWhile isPySpace).reverse.dropWhile isPySpace).reverse)

/-- Model of Python `str.replace(c, "")` for a single character: every
occurrence of `c` is removed. -/
def removeChar (c : Char) (s : String) : String :=
  String.mk (s.toList.filter (fun d => d ≠ c))

/-- Line 28 of checker.py: `address.strip().replace(...)` removing first
double-quote characters (`Char.ofNat 34`) and then single-quote characters
(`Char.ofNat 39`). -/
def cleanAddress (address : String) : String :=
  removeChar (Char.ofNat 39) (removeChar (Char.ofNat 34) (pyStrip address))

/-- Value of a digit character, accepting `0`-`9`, `a`-`f`, `A`-`F`. -/
def digitVal (c : Char) : Option Nat :=
  if c.isDigit then some (c.toNat - 48)
  else if c ≥ 'a' && c ≤ 'f' then some (c.toNat - 87)
  else if c ≥ 'A' && c ≤ 'F' then some (c.toNat - 55)
  else none

/-- Accumulate the value of a digit string in the given base; fails on any
character that is not a digit of the base. -/
def parseDigits (base : Nat) : Nat → List Char → Option Nat
  | acc, [] => some acc
  | acc, c :: cs =>
    match digitVal c with
    | some d => if d < base then parseDigits base (base * acc + d) cs else none
    | none => none

/-- Model of Python `int(s, base)` for bases 10 and 16 as used on lines 46
and 49 of checker.py: surrounding whitespace is stripped, an optional sign is
read, for base 16 an optional `0x`/`0X` marker is consumed, and the remaining
characters must be a nonempty digit string of the base (`none` models the
`ValueError` raised otherwise; underscore digit grouping is not modelled). -/
def pyInt (base : Nat) (s : String) : Option Int :=
  let cs := (pyStrip s).toList
  let signAndRest : Int × List Char :=
    match cs with
    | c :: rest => if c = '+' then (1, rest) else if c = '-' then (-1, rest) else (1, cs)
    | [] => (1, [])
  let cs1 := signAndRest.2
  let cs2 :=
    if base = 16 then
      match cs1 with
      | c0 :: c1 :: rest =>
        if c0 = '0' && (c1 = 'x' || c1 = 'X') then rest else cs1
      | _ => cs1
    else cs1
  match cs2 with
  | [] => none
  | _ => (parseDigits base 0 cs2).map (fun n => signAndRest.1 * (n : Int))

/-- A JSON value found in the `balance` field: a string, an integer, or any
other value (`null`, object, array) on which Python `int()` raises. -/
inductive JsonVal where
  | str (s : String)
  | int (n : Int)
  | other

deriving instance DecidableEq for JsonVal

/-- The part of a parsed JSON response body the program reads: its `balance`
field, if present. -/
structure JsonObj where
  balance : Option JsonVal

deriving instance DecidableEq for JsonObj

/-- Model of Python `balance_str.startswith("0x")` on lines 44 and 74: the
first two characters are exactly `0` and lowercase `x`. -/
def startsWithHexMarker (s : String) : Bool :=
  match s.toList with
  | c0 :: c1 :: _ => c0 = '0' && c1 = 'x'
  | _ => false

/-- Lines 44-49 (and the verbatim copy on lines 74-79) of checker.py: a string
starting with `0x` is parsed as base 16, any other string as base 10, an
integer is passed through by `int()`, and any other value raises (`none`). -/
def decodeBalance : JsonVal → Option Int
  | .str s => if startsWithHexMarker s then pyInt 16 s else pyInt 10 s
  | .int n => some n
  | .other => none

/-- Line 51: `balance_micro_stx / 1_000_000`, modelled exactly in `ℚ`. -/
def microStxToStx (micro : Int) : ℚ := (micro : ℚ) / 1000000

/-- Lines 38-51 (and 68-81): parse the response body as JSON (`none` body
means `response.json()` raised), read `balance` with default string `"0"`,
decode it and convert to STX.  `none` models a raised exception. -/
def decodeResponseBalance (body : Option JsonObj) : Option ℚ :=
  match body with
  | none => none
  | some data => (decodeBalance ((data.balance).getD (.str "0"))).map microStxToStx

/-- Line 18 of checker.py. -/
def base_url : String := "https://stacks-node-api.mainnet.stacks.co/extended/v1/address/"

/-- Line 31: the primary request URL for a cleaned address. -/
def primaryUrl (clean_address : String) : String := base_url ++ clean_address

/-- Line 64: the fallback accounts-endpoint URL for a cleaned address. -/
def fallbackUrl (clean_address : String) : String :=
  "https://stacks-node-api.mainnet.stacks.co/v2/accounts/" ++ clean_address

/-- Outcome of one `requests.get` call: a raised exception, or a response with
a status code and a body (`none` body: a body on which `.json()` raises). -/
inductive HttpOutcome where
  | exn
  | resp (status : Nat) (body : Option JsonObj)

deriving instance DecidableEq for HttpOutcome

/-- Outcome of processing one entry of the loop body (lines 26-101):
an exception caught by the `except` block, a skip without exception, or a
qualifying record added to the result dict. -/
inductive EntryOutcome where
  | raised
  | skipped
  | qualified (address : String) (balance : ℚ)

deriving instance DecidableEq for EntryOutcome

/-- The loop body of `check_stx_balances` (lines 26-92) for one address:
clean the address, query the primary endpoint; on status 200 decode the
balance and qualify on strict excess of the threshold; on any other status
query the fallback endpoint once and apply the same decode logic; every
raised exception yields `.raised` (caught on line 99). -/
def processEntry (net : String → HttpOutcome) (min_balance : ℚ) (address : String) :
    EntryOutcome :=
  match net (primaryUrl (cleanAddress address)) with
  | .exn => .raised
  | .resp status body =>
    if status = 200 then
      match decodeResponseBalance body with
      | none => .raised
      | some balance_stx =>
        if balance_stx > min_balance then .qualified (cleanAddress address) balance_stx
        else .skipped
    else
      match net (fallbackUrl (cleanAddress address)) with
      | .exn => .raised
      | .resp fstatus fbody =>
        if fstatus = 200 then
          match decodeResponseBalance fbody with
          | none => .raised
          | some balance_stx =>
            if balance_stx > min_balance then .qualified (cleanAddress address) balance_stx
            else .skipped
        else .skipped

/-- The decoded STX balance an entry's lookup yields, if the control flow of
the loop body reaches a successful decode: primary response with status 200,
or fallback response with status 200 after a non-200 primary response. -/
def lookupBalance (net : String → HttpOutcome) (address : String) : Option ℚ :=
  match net (primaryUrl (cleanAddress address)) with
  | .exn => none
  | .resp status body =>
    if status = 200 then decodeResponseBalance body
    else
      match net (fallbackUrl (cleanAddress address)) with
      | .exn => none
      | .resp fstatus fbody =>
        if fstatus = 200 then decodeResponseBalance fbody else none

/-- The URLs requested while processing one entry, in order: the primary URL
always; the fallback URL exactly when the primary call returned a response
with a non-200 status (an exception in the primary call skips the fallback). -/
def entryRequests (net : String → HttpOutcome) (address : String) : List String :=
  match net (primaryUrl (cleanAddress address)) with
  | .exn => [primaryUrl (cleanAddress address)]
  | .resp status _ =>
    if status = 200 then [primaryUrl (cleanAddress address)]
    else [primaryUrl (cleanAddress address), fallbackUrl (cleanAddress address)]

/-- `check_stx_balances` (lines 6-104): the result dict, as the list of
(name, cleaned address, balance) records in insertion order.  An entry
contributes a record exactly when its loop body qualifies it. -/
def check_stx_balances (net : String → HttpOutcome) (address_dict : List (String × String))
    (min_balance : ℚ) : List (String × String × ℚ) :=
  address_dict.filterMap fun e =>
    match processEntry net min_balance e.2 with
    | .qualified a b => some (e.1, a, b)
    | _ => none

/-- The indices at which `time.sleep(1)` runs (lines 95-97), starting the scan
at enumeration index `i`: the sleep statement sits at the end of the `try`
block, so it runs only when the iteration raised no exception, and only when
`i > 0 and i % 5 == 0`. -/
def sleepIndicesFrom (net : String → HttpOutcome) (min_balance : ℚ) :
    Nat → List (String × String) → List Nat
  | _, [] => []
  | i, e :: rest =>
    if processEntry net min_balance e.2 ≠ .raised ∧ 0 < i ∧ i % 5 = 0 then
      i :: sleepIndicesFrom net min_balance (i + 1) rest
    else sleepIndicesFrom net min_balance (i + 1) rest

/-- The indices of `check_stx_balances`'s loop at which execution pauses for
1 second. -/
def sleepIndices (net : String → HttpOutcome) (address_dict : List (String × String))
    (min_balance : ℚ) : List Nat :=
  sleepIndicesFrom net min_balance 0 address_dict

/-- The state of `stacks_addresses.json` as `main` finds it: absent, present
but not valid JSON, or a valid JSON object modelled as an association list. -/
inductive InputFile where
  | missing
  | invalid
  | ok (address_dict : List (String × String))

/-- Observable effects of one run of `main` (lines 106-143): the specific
error message printed on an input error, the network requests issued, and the
content written to `qualifying_addresses.json` (none if the run returned
before the write on line 132). -/
structure RunResult where
  errorMsg : Option String
  requests : List String
  outputFile : Option (List (String × String × ℚ))

deriving instance DecidableEq for RunResult

/-- Line 112 of checker.py. -/
def fileNotFoundMsg : String := "Error: stacks_addresses.json file not found"

/-- Line 116 of checker.py. -/
def invalidJsonMsg : String := "Error: stacks_addresses.json is not a valid JSON file"

/-- `main` (lines 106-143): on a missing or invalid input file print the
specific error and return before any network activity or file write; otherwise
run the checker with the fixed threshold 5.0 and write the result. -/
def mainRun : InputFile → (String → HttpOutcome) → RunResult
  | .missing, _ => ⟨some fileNotFoundMsg, [], none⟩
  | .invalid, _ => ⟨some invalidJsonMsg, [], none⟩
  | .ok address_dict, net =>
    ⟨none, (address_dict.map (fun e => entryRequests net e.2)).flatten,
      some (check_stx_balances net address_dict 5)⟩

/-- The string-valued global bindings in effect when checker.py runs as a
script: the interpreter sets `__name__` to `"__main__"`. -/
def scriptStringGlobals : List (String × String) := [("__name__", "__main__")]

/-- The names bound at module level by executing checker.py's statements
(imports and the two `def`s); none of them is `_name_`. -/
def moduleTopLevelNames : List String :=
  ["requests", "json", "time", "Dict", "Any", "check_stx_balances", "main"]

/-- Outcome of running the file as a script: a NameError raised while
evaluating the guard on line 145, a completed run of `main`, or a silent exit
because the guard compared unequal. -/
inductive ScriptOutcome where
  | nameError (ident : String)
  | ranMain (result : RunResult)
  | guardFalse

deriving instance DecidableEq for ScriptOutcome

/-- Python name resolution for an identifier appearing in the line-145 guard:
`some (some v)` if bound to string `v`, `some none` if bound to a non-string
module value, `none` if unbound (evaluating it raises NameError). -/
def resolveScriptName (ident : String) : Option (Option String) :=
  match scriptStringGlobals.lookup ident with
  | some v => some (some v)
  | none => if ident ∈ moduleTopLevelNames then some none else none

/-- Line 145 of checker.py reads `if _name_ == "_main_":` (with single
underscores).  Running the file as a script executes the module body and then
evaluates this guard; `main` runs only if the guard identifier resolves to a
string equal to the guard literal. -/
def runScript (file : InputFile) (net : String → HttpOutcome) : ScriptOutcome :=
  match resolveScriptName "_name_" with
  | none => .nameError "_name_"
  | some (some v) => if v = "_main_" then .ranMain (mainRun file net) else .guardFalse
  | some none => .guardFalse

/-- A network oracle returning the same outcome for every URL. -/
def constNet (o : HttpOutcome) : String → HttpOutcome := fun _ => o

/-- A network oracle built from a URL table; unlisted URLs raise. -/
def netOf (table : List (String × HttpOutcome)) : String → HttpOutcome := fun url =>
  (table.lookup url).getD .exn

/-- A 200 response whose parsed body has the given `balance` field. -/
def okBody (v : JsonVal) : HttpOutcome := .resp 200 (some ⟨some v⟩)

/-! ## Structural lemmas about the loop body -/

/-- An entry qualifies exactly when its lookup yields a decoded balance that
strictly exceeds the threshold; the recorded address is the cleaned one. -/
theorem processEntry_qualified_iff (net : String → HttpOutcome) (t : ℚ)
    (addr a : String) (b : ℚ) :
    processEntry net t addr = .qualified a b ↔
      lookupBalance net addr = some b ∧ a = cleanAddress addr ∧ b > t := by
  unfold processEntry lookupBalance
  cases hp : net (primaryUrl (cleanAddress addr)) with
  | exn => simp
  | resp status body =>
    dsimp only
    by_cases hs : status = 200
    · rw [if_pos hs, if_pos hs]
      cases hd : decodeResponseBalance body with
      | none => simp
      | some bal =>
        dsimp only
        by_cases hbt : bal > t
        · rw [if_pos hbt]
          constructor
          · intro h
            injection h with h1 h2
            exact ⟨h2 ▸ rfl, h1.symm, h2 ▸ hbt⟩
          · rintro ⟨h1, rfl, h3⟩
            injection h1 with h1
            rw [h1]
        · rw [if_neg hbt]
          constructor
          · intro h; simp at h
          · rintro ⟨h1, rfl, h3⟩
            injection h1 with h1
            exact absurd (h1 ▸ h3) hbt
    · rw [if_neg hs, if_neg hs]
      cases hf : net (fallbackUrl (cleanAddress addr)) with
      | exn => simp
      | resp fstatus fbody =>
        dsimp only
        by_cases hfs : fstatus = 200
        · rw [if_pos hfs, if_pos hfs]
          cases hd : decodeResponseBalance fbody with
          | none => simp
          | some bal =>
            dsimp only
            by_cases hbt : bal > t
            · rw [if_pos hbt]
              constructor
              · intro h
                injection h with h1 h2
                exact ⟨h2 ▸ rfl, h1.symm, h2 ▸ hbt⟩
              · rintro ⟨h1, rfl, h3⟩
                injection h1 with h1
                rw [h1]
            · rw [if_neg hbt]
              constructor
              · intro h; simp at h
              · rintro ⟨h1, rfl, h3⟩
                injection h1 with h1
                exact absurd (h1 ▸ h3) hbt
        · rw [if_neg hfs, if_neg hfs]
          simp

/-- When an entry's lookup yields a decoded balance, the entry cannot raise:
it qualifies when the balance strictly exceeds the threshold and is skipped
otherwise. -/
theorem processEntry_eq_of_lookup (net : String → HttpOutcome) (t : ℚ)
    (addr : String) (b : ℚ) (h : lookupBalance net addr = some b) :
    processEntry net t addr =
      if b > t then .qualified (cleanAddress addr) b else .skipped := by
  unfold lookupBalance at h
  unfold processEntry
  cases hp : net (primaryUrl (cleanAddress addr)) with
  | exn => rw [hp] at h; exact absurd h (by simp)
  | resp status body =>
    rw [hp] at h
    dsimp only at h ⊢
    by_cases hs : status = 200
    · rw [if_pos hs] at h ⊢
      rw [h]
    · rw [if_neg hs] at h ⊢
      cases hf : net (fallbackUrl (cleanAddress addr)) with
      | exn => rw [hf] at h; exact absurd h (by simp)
      | resp fstatus fbody =>
        rw [hf] at h
        dsimp only at h ⊢
        by_cases hfs : fstatus = 200
        · rw [if_pos hfs] at h ⊢
          rw [h]
        · rw [if_neg hfs] at h
          exact absurd h (by simp)

/-- In an association list with no duplicate keys, a key determines its
value. -/
theorem assoc_key_unique {l : List (String × String)} {n a1 a2 : String}
    (hn : (l.map Prod.fst).Nodup) (h1 : (n, a1) ∈ l) (h2 : (n, a2) ∈ l) :
    a1 = a2 := by
  induction l with
  | nil => cases h1
  | cons e rest ih =>
    rw [List.map_cons, List.nodup_cons] at hn
    rcases List.mem_cons.mp h1 with he1 | ht1 <;>
      rcases List.mem_cons.mp h2 with he2 | ht2
    · rw [← he1] at he2
      exact (Prod.mk.injEq _ _ _ _ ▸ congrArg id he2).2.symm ▸ rfl
    · exact absurd (List.mem_map.mpr ⟨(n, a2), ht2, by rw [← he1]⟩) hn.1
    · exact absurd (List.mem_map.mpr ⟨(n, a1), ht1, by rw [← he2]⟩) hn.1
    · exact ih hn.2 ht1 ht2

/-- Membership in the result dict of `check_stx_balances`: a record is
present exactly when some input entry with that name qualified with that
address and balance. -/
theorem mem_check_iff (net : String → HttpOutcome) (l : List (String × String))
    (t : ℚ) (n a : String) (b : ℚ) :
    (n, a, b) ∈ check_stx_balances net l t ↔
      ∃ addr, (n, addr) ∈ l ∧ processEntry net t addr = .qualified a b := by
  unfold check_stx_balances
  rw [List.mem_filterMap]
  constructor
  · rintro ⟨⟨n2, addr⟩, hmem, heq⟩
    cases hpe : processEntry net t addr with
    | raised => rw [hpe] at heq; exact absurd heq (by simp)
    | skipped => rw [hpe] at heq; exact absurd heq (by simp)
    | qualified a2 b2 =>
      rw [hpe] at heq
      simp only [Option.some_inj, Prod.mk.injEq] at heq
      obtain ⟨h1, h2, h3⟩ := heq
      exact ⟨addr, h1 ▸ hmem, h2 ▸ h3 ▸ hpe⟩
  · rintro ⟨addr, hmem, hpe⟩
    exact ⟨(n, addr), hmem, by rw [hpe]⟩

/-! ## Claims -/

/-- C1: for every input mapping and threshold, a name whose address lookup
yields a decoded balance `b` appears in the result of `check_stx_balances`
iff `b > t` (strictly); moreover every output name is an input key and every
output balance strictly exceeds the threshold. -/
theorem c1_strict_threshold_filter (net : String → HttpOutcome)
    (entries : List (String × String)) (t : ℚ) (name addr : String) (b : ℚ)
    (hnodup : (entries.map Prod.fst).Nodup)
    (hmem : (name, addr) ∈ entries)
    (hb : lookupBalance net addr = some b) :
    ((∃ a2 b2, (name, a2, b2) ∈ check_stx_balances net entries t) ↔ b > t)
    ∧ (∀ n a2 b2, (n, a2, b2) ∈ check_stx_balances net entries t →
        n ∈ entries.map Prod.fst)
    ∧ (∀ n a2 b2, (n, a2, b2) ∈ check_stx_balances net entries t → b2 > t) := by
  refine ⟨⟨?_, ?_⟩, ?_, ?_⟩
  · rintro ⟨a2, b2, hin⟩
    obtain ⟨addr2, hmem2, hpe⟩ := (mem_check_iff _ _ _ _ _ _).mp hin
    have he : addr2 = addr := assoc_key_unique hnodup hmem2 hmem
    subst he
    obtain ⟨hl, ha, hbt⟩ := (processEntry_qualified_iff _ _ _ _ _).mp hpe
    rw [hb] at hl
    injection hl with hl
    rw [hl]
    exact hbt
  · intro hbt
    exact ⟨cleanAddress addr, b,
      (mem_check_iff _ _ _ _ _ _).mpr
        ⟨addr, hmem, (processEntry_qualified_iff _ _ _ _ _).mpr ⟨hb, rfl, hbt⟩⟩⟩
  · intro n a2 b2 hin
    obtain ⟨addr2, hmem2, _⟩ := (mem_check_iff _ _ _ _ _ _).mp hin
    exact List.mem_map.mpr ⟨(n, addr2), hmem2, rfl⟩
  · intro n a2 b2 hin
    obtain ⟨addr2, hmem2, hpe⟩ := (mem_check_iff _ _ _ _ _ _).mp hin
    exact ((processEntry_qualified_iff _ _ _ _ _).mp hpe).2.2

theorem c1_strict_threshold_filter_witness :
    ((∃ a2 b2, ("alice", a2, b2) ∈
        check_stx_balances (constNet (okBody (.int 6000000))) [("alice", "A")] 5) ↔
      (6 : ℚ) > 5)
    ∧ (∀ n a2 b2, (n, a2, b2) ∈
        check_stx_balances (constNet (okBody (.int 6000000))) [("alice", "A")] 5 →
        n ∈ [("alice", "A")].map Prod.fst)
    ∧ (∀ n a2 b2, (n, a2, b2) ∈
        check_stx_balances (constNet (okBody (.int 6000000))) [("alice", "A")] 5 →
        b2 > 5) :=
  c1_strict_threshold_filter (constNet (okBody (.int 6000000))) [("alice", "A")] 5
    "alice" "A" 6 (by decide) (by decide)
    (by norm_num [lookupBalance, constNet, okBody, decodeResponseBalance, decodeBalance,
      microStxToStx])

/-- C2: for a 200 response whose balance field is a string, a `0x`-prefixed
string is decoded as base 16 and any other string as base 10, then divided by
1,000,000; concretely, balance string `0x4c4b40` decodes to 5 STX and
`5000001` decodes to 5.000001 STX. -/
theorem c2_balance_decoding :
    (∀ (net : String → HttpOutcome) (addr s : String) (m : Int),
      net (primaryUrl (cleanAddress addr)) = .resp 200 (some ⟨some (.str s)⟩) →
      startsWithHexMarker s → pyInt 16 s = some m →
      lookupBalance net addr = some ((m : ℚ) / 1000000))
    ∧ (∀ (net : String → HttpOutcome) (addr s : String) (m : Int),
      net (primaryUrl (cleanAddress addr)) = .resp 200 (some ⟨some (.str s)⟩) →
      ¬ startsWithHexMarker s → pyInt 10 s = some m →
      lookupBalance net addr = some ((m : ℚ) / 1000000))
    ∧ (∀ addr, lookupBalance (constNet (okBody (.str "0x4c4b40"))) addr = some 5)
    ∧ (∀ addr, lookupBalance (constNet (okBody (.str "5000001"))) addr =
        some (5000001 / 1000000 : ℚ)) := by
  have hhex : ∀ (net : String → HttpOutcome) (addr s : String) (m : Int),
      net (primaryUrl (cleanAddress addr)) = .resp 200 (some ⟨some (.str s)⟩) →
      startsWithHexMarker s → pyInt 16 s = some m →
      lookupBalance net addr = some ((m : ℚ) / 1000000) := by
    intro net addr s m h hstart hparse
    unfold lookupBalance
    rw [h]
    dsimp only
    rw [if_pos rfl]
    simp [decodeResponseBalance, decodeBalance, hstart, hparse, microStxToStx]
  have hdec : ∀ (net : String → HttpOutcome) (addr s : String) (m : Int),
      net (primaryUrl (cleanAddress addr)) = .resp 200 (some ⟨some (.str s)⟩) →
      ¬ startsWithHexMarker s → pyInt 10 s = some m →
      lookupBalance net addr = some ((m : ℚ) / 1000000) := by
    intro net addr s m h hstart hparse
    unfold lookupBalance
    rw [h]
    dsimp only
    rw [if_pos rfl]
    simp [decodeResponseBalance, decodeBalance, hstart, hparse, microStxToStx]
  refine ⟨hhex, hdec, ?_, ?_⟩
  · intro addr
    have h5 : pyInt 16 "0x4c4b40" = some 5000000 := by decide
    have := hhex (constNet (okBody (.str "0x4c4b40"))) addr "0x4c4b40" 5000000 rfl
      (by decide) h5
    rw [this]
    norm_num
  · intro addr
    have h5 : pyInt 10 "5000001" = some 5000001 := by decide
    exact hdec (constNet (okBody (.str "5000001"))) addr "5000001" 5000001 rfl
      (by decide) h5

theorem c2_balance_decoding_witness :
    lookupBalance (constNet (okBody (.str "0x10"))) "SPTEST" = some ((16 : ℚ) / 1000000) :=
  c2_balance_decoding.1 (constNet (okBody (.str "0x10"))) "SPTEST" "0x10" 16 rfl
    (by decide) (by decide)

/-- C3: the address is normalized (whitespace trimmed, quote characters
removed) before any request: every URL requested for an entry is built from
the cleaned address, and the address stored in an output record is the
cleaned address of the corresponding input entry; the spec's example
normalizes as stated. -/
theorem c3_address_normalization :
    cleanAddress "  \x27SP2J6ZY48GV1EZ5V2V5RB9MP66SW86PYKKNRV9EJ7\x27 " =
      "SP2J6ZY48GV1EZ5V2V5RB9MP66SW86PYKKNRV9EJ7"
    ∧ (∀ (net : String → HttpOutcome) (addr : String),
        entryRequests net addr = [primaryUrl (cleanAddress addr)] ∨
        entryRequests net addr =
          [primaryUrl (cleanAddress addr), fallbackUrl (cleanAddress addr)])
    ∧ (∀ (net : String → HttpOutcome) (entries : List (String × String)) (t : ℚ)
        (name addr a : String) (b : ℚ), (entries.map Prod.fst).Nodup →
        (name, addr) ∈ entries → (name, a, b) ∈ check_stx_balances net entries t →
        a = cleanAddress addr) := by
  refine ⟨by decide, ?_, ?_⟩
  · intro net addr
    unfold entryRequests
    cases net (primaryUrl (cleanAddress addr)) with
    | exn => left; rfl
    | resp status body =>
      dsimp only
      by_cases hs : status = 200
      · rw [if_pos hs]; left; rfl
      · rw [if_neg hs]; right; rfl
  · intro net entries t name addr a b hnodup hmem hin
    obtain ⟨addr2, hmem2, hpe⟩ := (mem_check_iff _ _ _ _ _ _).mp hin
    have he : addr2 = addr := assoc_key_unique hnodup hmem2 hmem
    subst he
    exact ((processEntry_qualified_iff _ _ _ _ _).mp hpe).2.1

theorem c3_address_normalization_witness :
    "A" = cleanAddress "  \x27A\x27 " :=
  c3_address_normalization.2.2 (constNet (okBody (.int 6000000)))
    [("alice", "  \x27A\x27 ")] 5 "alice" "  \x27A\x27 " "A" 6 (by decide) (by decide)
    ((mem_check_iff _ _ _ _ _ _).mpr ⟨"  \x27A\x27 ", by decide,
      (processEntry_qualified_iff _ _ _ _ _).mpr
        ⟨by norm_num [lookupBalance, constNet, okBody, decodeResponseBalance,
          decodeBalance, microStxToStx], by decide, by norm_num⟩⟩)

/-- C4: when the primary request returns a non-200 status, exactly one more
request is made, to the fallback accounts URL for the same cleaned address;
a 200 fallback response is decoded by the same `decodeResponseBalance` logic
as the primary; a non-200 fallback response makes the entry a skip, with no
further retry. -/
theorem c4_fallback_single_retry (net : String → HttpOutcome) (t : ℚ)
    (addr : String) (status : Nat) (body : Option JsonObj)
    (hprim : net (primaryUrl (cleanAddress addr)) = .resp status body)
    (hs : status ≠ 200) :
    entryRequests net addr =
      [primaryUrl (cleanAddress addr), fallbackUrl (cleanAddress addr)]
    ∧ (∀ fbody, net (fallbackUrl (cleanAddress addr)) = .resp 200 fbody →
        lookupBalance net addr = decodeResponseBalance fbody)
    ∧ (∀ fstatus fbody, net (fallbackUrl (cleanAddress addr)) = .resp fstatus fbody →
        fstatus ≠ 200 → processEntry net t addr = .skipped) := by
  refine ⟨?_, ?_, ?_⟩
  · unfold entryRequests
    rw [hprim]
    dsimp only
    rw [if_neg hs]
  · intro fbody hf
    unfold lookupBalance
    rw [hprim]
    dsimp only
    rw [if_neg hs, hf]
    dsimp only
    rw [if_pos rfl]
  · intro fstatus fbody hf hfs
    unfold processEntry
    rw [hprim]
    dsimp only
    rw [if_neg hs, hf]
    dsimp only
    rw [if_neg hfs]

theorem c4_fallback_single_retry_witness :
    entryRequests
        (netOf [(primaryUrl "A", .resp 404 none),
          (fallbackUrl "A", okBody (.int 7000000))]) "A" =
      [primaryUrl (cleanAddress "A"), fallbackUrl (cleanAddress "A")]
    ∧ lookupBalance
        (netOf [(primaryUrl "A", .resp 404 none),
          (fallbackUrl "A", okBody (.int 7000000))]) "A" =
      decodeResponseBalance (some ⟨some (.int 7000000)⟩) :=
  ⟨(c4_fallback_single_retry
      (netOf [(primaryUrl "A", .resp 404 none), (fallbackUrl "A", okBody (.int 7000000))])
      5 "A" 404 none (by decide) (by decide)).1,
    (c4_fallback_single_retry
      (netOf [(primaryUrl "A", .resp 404 none), (fallbackUrl "A", okBody (.int 7000000))])
      5 "A" 404 none (by decide) (by decide)).2.1 (some ⟨some (.int 7000000)⟩) (by decide)⟩

/-- C5: exceptions while processing one entry — a raising `requests.get`, a
body on which `.json()` raises, a balance value on which `int()` raises — are
caught: the entry yields `.raised`, contributes nothing to the result, and
the surrounding batch output is exactly that of the other entries. -/
theorem c5_exception_isolation (net : String → HttpOutcome) (t : ℚ) :
    (∀ addr, net (primaryUrl (cleanAddress addr)) = .exn →
      processEntry net t addr = .raised)
    ∧ (∀ addr, net (primaryUrl (cleanAddress addr)) = .resp 200 none →
      processEntry net t addr = .raised)
    ∧ (∀ addr body, net (primaryUrl (cleanAddress addr)) = .resp 200 (some body) →
      decodeBalance ((body.balance).getD (.str "0")) = none →
      processEntry net t addr = .raised)
    ∧ (∀ (xs ys : List (String × String)) (name addr : String),
      processEntry net t addr = .raised →
      check_stx_balances net (xs ++ (name, addr) :: ys) t =
        check_stx_balances net xs t ++ check_stx_balances net ys t) := by
  refine ⟨?_, ?_, ?_, ?_⟩
  · intro addr h
    unfold processEntry
    rw [h]
  · intro addr h
    unfold processEntry
    rw [h]
    dsimp only
    rw [if_pos rfl]
    simp [decodeResponseBalance]
  · intro addr body h hd
    unfold processEntry
    rw [h]
    dsimp only
    rw [if_pos rfl]
    simp [decodeResponseBalance, hd]
  · intro xs ys name addr h
    unfold check_stx_balances
    rw [List.filterMap_append]
    congr 1
    rw [List.filterMap_cons_none]
    simp [h]

theorem c5_exception_isolation_witness :
    check_stx_balances (netOf [(primaryUrl "G", okBody (.int 9000000))])
        ([("g", "G")] ++ ("bad", "B") :: [("h", "G")]) 5 =
      check_stx_balances (netOf [(primaryUrl "G", okBody (.int 9000000))]) [("g", "G")] 5
        ++ check_stx_balances (netOf [(primaryUrl "G", okBody (.int 9000000))])
            [("h", "G")] 5 :=
  (c5_exception_isolation (netOf [(primaryUrl "G", okBody (.int 9000000))]) 5).2.2.2
    [("g", "G")] [("h", "G")] "bad" "B" (by decide)

/-- A 200 response that parses as JSON but lacks the `balance` field defaults
to the string `"0"` (line 41/71) and decodes to 0 STX. -/
theorem lookupBalance_missing_field (net : String → HttpOutcome) (addr : String)
    (h : net (primaryUrl (cleanAddress addr)) = .resp 200 (some ⟨none⟩)) :
    lookupBalance net addr = some 0 := by
  unfold lookupBalance
  rw [h]
  dsimp only
  rw [if_pos rfl]
  have h0 : pyInt 10 "0" = some 0 := by decide
  have hsw : startsWithHexMarker "0" = false := by decide
  simp [decodeResponseBalance, decodeBalance, hsw, h0, microStxToStx]

/-- C6 counterexample: with threshold `-1`, an entry whose 200 response is
missing the `balance` field is not skipped — it lands in the result with
balance 0, so the claim that such an entry is always skipped is false. -/
theorem c6_missing_field_counterexample :
    check_stx_balances (constNet (.resp 200 (some ⟨none⟩))) [("a", "A")] (-1) =
      [("a", "A", 0)] := by
  have hq : processEntry (constNet (.resp 200 (some ⟨none⟩))) (-1) "A" =
      .qualified "A" 0 :=
    (processEntry_qualified_iff _ _ _ _ _).mpr
      ⟨lookupBalance_missing_field _ _ rfl, by decide, by norm_num⟩
  simp [check_stx_balances, hq]

/-- C6 (amended): a 200 JSON response without a `balance` field raises no
exception — the balance silently defaults to `"0"` (0 STX): the entry is
skipped whenever the threshold is nonnegative, but qualifies with balance 0
when the threshold is negative; in either case the rest of the batch is
unaffected. -/
theorem c6_missing_field_silent_default (net : String → HttpOutcome) (t : ℚ)
    (xs ys : List (String × String)) (name addr : String)
    (h : net (primaryUrl (cleanAddress addr)) = .resp 200 (some ⟨none⟩)) :
    processEntry net t addr ≠ .raised
    ∧ (0 ≤ t → check_stx_balances net (xs ++ (name, addr) :: ys) t =
        check_stx_balances net xs t ++ check_stx_balances net ys t)
    ∧ (t < 0 → check_stx_balances net (xs ++ (name, addr) :: ys) t =
        check_stx_balances net xs t ++
          (name, cleanAddress addr, 0) :: check_stx_balances net ys t) := by
  have hl := lookupBalance_missing_field net addr h
  have hpe := processEntry_eq_of_lookup net t addr 0 hl
  refine ⟨?_, ?_, ?_⟩
  · rw [hpe]
    split <;> simp
  · intro ht
    have hsk : processEntry net t addr = .skipped := by
      rw [hpe, if_neg (not_lt.mpr ht)]
    unfold check_stx_balances
    rw [List.filterMap_append]
    congr 1
    rw [List.filterMap_cons_none]
    simp [hsk]
  · intro ht
    have hq : processEntry net t addr = .qualified (cleanAddress addr) 0 := by
      rw [hpe, if_pos ht]
    unfold check_stx_balances
    rw [List.filterMap_append]
    congr 1
    rw [List.filterMap_cons_some]
    simp [hq]

theorem c6_missing_field_silent_default_witness :
    processEntry (constNet (.resp 200 (some ⟨none⟩))) 5 "A" ≠ .raised
    ∧ check_stx_balances (constNet (.resp 200 (some ⟨none⟩)))
        ([] ++ ("a", "A") :: []) 5 =
      check_stx_balances (constNet (.resp 200 (some ⟨none⟩))) [] 5 ++
        check_stx_balances (constNet (.resp 200 (some ⟨none⟩))) [] 5 :=
  ⟨(c6_missing_field_silent_default (constNet (.resp 200 (some ⟨none⟩))) 5 [] []
      "a" "A" rfl).1,
    (c6_missing_field_silent_default (constNet (.resp 200 (some ⟨none⟩))) 5 [] []
      "a" "A" rfl).2.1 (by norm_num)⟩

/-- C10: a 200 JSON response missing the `balance` field raises nothing: the
field defaults to `"0"`, decodes to 0 STX, the entry is excluded whenever the
threshold is at least 0, and qualifies with balance 0 when the threshold is
negative. -/
theorem c10_missing_field_default_zero (net : String → HttpOutcome) (t : ℚ)
    (addr : String)
    (h : net (primaryUrl (cleanAddress addr)) = .resp 200 (some ⟨none⟩)) :
    decodeResponseBalance (some ⟨none⟩) = some 0
    ∧ lookupBalance net addr = some 0
    ∧ processEntry net t addr ≠ .raised
    ∧ (0 ≤ t → processEntry net t addr = .skipped)
    ∧ (t < 0 → processEntry net t addr = .qualified (cleanAddress addr) 0) := by
  have hl := lookupBalance_missing_field net addr h
  have hpe := processEntry_eq_of_lookup net t addr 0 hl
  refine ⟨?_, hl, ?_, ?_, ?_⟩
  · have h0 : pyInt 10 "0" = some 0 := by decide
    have hsw : startsWithHexMarker "0" = false := by decide
    simp [decodeResponseBalance, decodeBalance, hsw, h0, microStxToStx]
  · rw [hpe]
    split <;> simp
  · intro ht
    rw [hpe, if_neg (not_lt.mpr ht)]
  · intro ht
    rw [hpe, if_pos ht]

theorem c10_missing_field_default_zero_witness :
    lookupBalance (constNet (.resp 200 (some ⟨none⟩))) "B" = some 0
    ∧ processEntry (constNet (.resp 200 (some ⟨none⟩))) 5 "B" = .skipped :=
  ⟨(c10_missing_field_default_zero (constNet (.resp 200 (some ⟨none⟩))) 5 "B" rfl).2.1,
    (c10_missing_field_default_zero (constNet (.resp 200 (some ⟨none⟩))) 5 "B"
      rfl).2.2.2.1 (by norm_num)⟩

/-- Membership in the sleep-index trace, scanning from start index `k`. -/
theorem mem_sleepIndicesFrom (net : String → HttpOutcome) (t : ℚ) (k i : Nat)
    (l : List (String × String)) :
    i ∈ sleepIndicesFrom net t k l ↔
      ∃ j e, l[j]? = some e ∧ i = k + j ∧ 0 < i ∧ i % 5 = 0 ∧
        processEntry net t e.2 ≠ .raised := by
  induction l generalizing k with
  | nil => simp [sleepIndicesFrom]
  | cons e rest ih =>
    unfold sleepIndicesFrom
    by_cases hc : processEntry net t e.2 ≠ .raised ∧ 0 < k ∧ k % 5 = 0
    · rw [if_pos hc]
      constructor
      · intro hmem
        rcases List.mem_cons.mp hmem with rfl | hmem2
        · exact ⟨0, e, by simp, by omega, hc.2.1, hc.2.2, hc.1⟩
        · obtain ⟨j, e2, hj, hi, h1, h2, h3⟩ := (ih (k + 1)).mp hmem2
          exact ⟨j + 1, e2, by simpa using hj, by omega, h1, h2, h3⟩
      · rintro ⟨j, e2, hj, hi, h1, h2, h3⟩
        cases j with
        | zero => exact List.mem_cons.mpr (Or.inl (by omega))
        | succ j2 =>
          simp only [List.getElem?_cons_succ] at hj
          exact List.mem_cons.mpr
            (Or.inr ((ih (k + 1)).mpr ⟨j2, e2, hj, by omega, h1, h2, h3⟩))
    · rw [if_neg hc]
      rw [ih (k + 1)]
      constructor
      · rintro ⟨j, e2, hj, hi, h1, h2, h3⟩
        exact ⟨j + 1, e2, by simpa using hj, by omega, h1, h2, h3⟩
      · rintro ⟨j, e2, hj, hi, h1, h2, h3⟩
        cases j with
        | zero =>
          simp only [List.getElem?_cons_zero, Option.some_inj] at hj
          subst hj
          exact absurd ⟨h3, by omega, by omega⟩ hc
        | succ j2 =>
          simp only [List.getElem?_cons_succ] at hj
          exact ⟨j2, e2, hj, by omega, h1, h2, h3⟩

/-- C7 (amended): the 1-second pause happens exactly at the indices that are
positive multiples of 5 whose own entry finished without a caught exception;
an entry whose processing raised skips the pause because the sleep statement
sits at the end of the `try` block. -/
theorem c7_sleep_schedule (net : String → HttpOutcome)
    (entries : List (String × String)) (t : ℚ) (i : Nat) :
    i ∈ sleepIndices net entries t ↔
      0 < i ∧ i % 5 = 0 ∧
        ∃ e, entries[i]? = some e ∧ processEntry net t e.2 ≠ .raised := by
  unfold sleepIndices
  rw [mem_sleepIndicesFrom]
  constructor
  · rintro ⟨j, e, hj, hi, h1, h2, h3⟩
    have he : i = j := by omega
    subst he
    exact ⟨h1, h2, e, hj, h3⟩
  · rintro ⟨h1, h2, e, hi, h3⟩
    exact ⟨i, e, hi, by omega, h1, h2, h3⟩

/-- C7 counterexample: with six entries whose processing all raises (the
network oracle always raises), no pause happens at index 5, contradicting
the claim that a pause occurs after every entry at a positive multiple
of 5. -/
theorem c7_sleep_counterexample :
    5 ∉ sleepIndices (constNet .exn) (List.replicate 6 ("a", "A")) 5 := by decide

/-- C8: on a missing input file, and on an unparseable one, `main` prints the
specific error message for that condition and returns early: no network
request is issued and no output file is written. -/
theorem c8_input_errors (net : String → HttpOutcome) :
    mainRun .missing net = ⟨some fileNotFoundMsg, [], none⟩
    ∧ mainRun .invalid net = ⟨some invalidJsonMsg, [], none⟩
    ∧ fileNotFoundMsg ≠ invalidJsonMsg :=
  ⟨rfl, rfl, by decide⟩

/-- C9: the guard on line 145 compares the undefined identifier `_name_`
(not `__name__`), so running the file as a script raises a NameError before
`main` is ever invoked: the read-scan-write-report cycle never runs. -/
theorem c9_script_never_runs_main (file : InputFile) (net : String → HttpOutcome) :
    runScript file net = .nameError "_name_"
    ∧ ∀ r, runScript file net ≠ .ranMain r := by
  have hres : resolveScriptName "_name_" = none := by decide
  unfold runScript
  rw [hres]
  exact ⟨rfl, fun r h => ScriptOutcome.noConfusion h⟩
